import Mathlib

/-!
Verification of the GPT-clone streaming message pipeline.

The definitions below are a shallow embedding of the backend streaming route
handlers (`GET /api/messages/stream` and `POST /api/messages/stream` in
`backend/routes/messages.js`), of the helper modules
(`utils/messageUtils.js`, `utils/streamingUtils.js`, the conversation and
OpenAI utility modules) and of the client-side stream consumer
(`frontend/src/hooks/useMessages.js`).

Strings are modelled as `List Char`; the database and the OpenAI provider are
modelled as explicit parameters (a conversation table and per-attempt oracles),
so every handler becomes a pure function from a request and an environment to
the emitted event trace plus the persisted records.
-/

namespace GptClone

/-- JavaScript strings are modelled as lists of characters. -/
abbrev Str := List Char

/-- Whitespace test used by `String.prototype.trim` (space, tab, newline, CR). -/
def isWsB (c : Char) : Bool := c == ' ' || c == '\t' || c == '\n' || c == '\r'

/-- JavaScript `content.trim()`: strip leading and trailing whitespace. -/
def trim (l : Str) : Str :=
  ((l.dropWhile isWsB).reverse.dropWhile isWsB).reverse

/-- Truthiness of an optional string parameter: present and non-empty. -/
def strTruthy : Option Str → Bool
  | some s => !s.isEmpty
  | none => false

/-- A conversation row: `prisma.conversation` with the fields the pipeline uses. -/
structure Conversation where
  id : Str
  userId : Str
  title : Str
  deriving DecidableEq, Repr

/-- A message row: `prisma.message` with the fields the pipeline uses. -/
structure Message where
  content : Str
  role : Str
  conversationId : Str
  userId : Str
  deriving DecidableEq, Repr

/-- One server-sent event, as written by the stream handlers
(`data: {"type": ...}`). -/
inductive Event where
  | start (userMessage : Message) (conversation : Conversation)
  | chunk (content : Str)
  | complete (assistantMessage : Message)
  | error (message : Str)
  deriving DecidableEq, Repr

/-- One attempt of the token-streamed chat completion: the fragments the
stream yielded, and - when the stream raised - the error message. -/
inductive ChatAttempt where
  | success (frags : List Str)
  | failure (frags : List Str) (errMsg : Str)

/-- The environment of one request: authentication resolution, the
conversation table, the provider oracles (per attempt number), and the id the
store assigns to a newly created conversation. -/
structure Env where
  authUser : Str → Option Str
  conversations : List Conversation
  chatOracle : Nat → ChatAttempt
  fileOracle : Nat → Except Str Str
  newConversationId : Str

/-- The request parameters of the two stream endpoints (query string for GET,
JSON body for POST). -/
structure StreamQuery where
  conversationId : Option Str
  content : Str
  authorization : Option Str
  hasFile : Bool
  filename : Option Str
  fileData : Option Str

/-- The streaming side effects of one request: the emitted events, the
conversation created (when no `conversationId` was given), the persisted user
message, and the persisted assistant message (absent on the POST error path). -/
structure StreamOutcome where
  events : List Event
  createdConversation : Option Conversation
  userMessage : Message
  assistantMessage : Option Message
  deriving DecidableEq, Repr

/-- The observable result of a stream handler: a synchronous HTTP error
(before the channel opened) or the streaming outcome. -/
inductive HandlerResult where
  | httpError (status : Nat) (message : Str)
  | streamed (outcome : StreamOutcome)
  deriving DecidableEq, Repr

/-- Title expression inlined in the route handlers:
`content.substring(0, 50) + (content.length > 50 ? "..." : "")`. -/
def routeTitle (content : Str) : Str :=
  content.take 50 ++ (if 50 < content.length then "...".data else [])

/-- generateConversationTitle from the conversation utility module: trims,
falls back to "New Conversation" on empty input, truncates with "...". -/
def generateConversationTitle (content : Str) (maxLength : Nat) : Str :=
  if (trim content).isEmpty then "New Conversation".data
  else
    let trimmed := trim content
    if maxLength < trimmed.length then trimmed.take maxLength ++ "...".data
    else trimmed

/-- validateMessageContent from `utils/messageUtils.js`: collects the error
list and reports validity. -/
structure ValidationResult where
  isValid : Bool
  errors : List Str
  deriving DecidableEq, Repr

/-- validateMessageContent: empty, whitespace-only, or over-10,000-character
content is invalid. -/
def validateMessageContent (content : Str) : ValidationResult :=
  let errors : List Str :=
    if content.isEmpty then ["Message content is required".data]
    else if (trim content).isEmpty then ["Message content cannot be empty".data]
    else if 10000 < content.length then
      ["Message content is too long (maximum 10,000 characters)".data]
    else []
  ⟨errors.isEmpty, errors⟩

/-- JavaScript `text.split(' ')`: split on every single space, keeping empty
pieces; the result is never the empty list. -/
def splitSpace : Str → List Str
  | [] => [[]]
  | c :: cs =>
    if c = ' ' then [] :: splitSpace cs
    else
      match splitSpace cs with
      | w :: ws => (c :: w) :: ws
      | [] => [[c]]

/-- The chunking of simulateStreamingFromText and of the inlined loops in the
route handlers: the first word bare, every later word prefixed with a space. -/
def spaceChunks : List Str → List Str
  | [] => []
  | w :: ws => w :: ws.map (fun x => ' ' :: x)

/-- simulateStreamingFromText (OpenAI utility module) and the inlined
file-response loops: the chunk sequence emitted for a complete text. -/
def simulateStreamingFromText (text : Str) : List Str :=
  spaceChunks (splitSpace text)

/-- The condition selecting the file branch inside the retry loop:
`hasFile && fileData && filename` (truthiness of the string fields). -/
def fileBranch (q : StreamQuery) : Bool :=
  q.hasFile && strTruthy q.fileData && strTruthy q.filename

/-- The fallback text assigned on GET retry exhaustion. -/
def apology : Str :=
  "I\x27m sorry, I\x27m experiencing technical difficulties. Please try again later.".data

/-- The default POST error payload: `openaiError.message || 'OpenAI API error occurred'`. -/
def defaultOpenAIErr : Str := "OpenAI API error occurred".data

/-- JavaScript `a || b` on strings: the left value unless it is falsy (empty). -/
def jsOr (a b : Str) : Str := if a.isEmpty then b else a

/-- Chat-stream fragments that pass the `if (chunkContent)` truthiness check. -/
def nonEmptyFrags (frags : List Str) : List Str :=
  frags.filter (fun f => !f.isEmpty)

/-- The GET handler retry loop (`while (retryCount < maxRetries)`), embedded
with structural fuel (the loop body runs at most `maxRetries` times; callers
start with `fuel = 3`, `rc = 0`). Returns the chunk events emitted inside the
loop and the final `fullResponse` accumulator. On exhaustion the GET handler
overwrites `fullResponse` with the apology text and emits it as a chunk. -/
def streamLoopGet (env : Env) (useFile : Bool) : Nat → Nat → Str → List Event × Str
  | 0, _, acc => ([], acc)
  | fuel + 1, rc, acc =>
    if rc < 3 then
      if useFile then
        match env.fileOracle rc with
        | .ok text => ((simulateStreamingFromText text).map Event.chunk, text)
        | .error _ =>
          if rc + 1 = 3 then ([Event.chunk apology], apology)
          else streamLoopGet env useFile fuel (rc + 1) acc
      else
        match env.chatOracle rc with
        | .success frags =>
          let ne := nonEmptyFrags frags
          (ne.map Event.chunk, acc ++ ne.flatten)
        | .failure frags _ =>
          let ne := nonEmptyFrags frags
          if rc + 1 = 3 then (ne.map Event.chunk ++ [Event.chunk apology], apology)
          else
            ((nonEmptyFrags frags).map Event.chunk ++
              (streamLoopGet env useFile fuel (rc + 1) (acc ++ (nonEmptyFrags frags).flatten)).1,
              (streamLoopGet env useFile fuel (rc + 1) (acc ++ (nonEmptyFrags frags).flatten)).2)
    else ([], acc)

/-- The POST handler retry loop. Identical to the GET loop except on
exhaustion: the POST handler emits an `error` event carrying
`openaiError.message || 'OpenAI API error occurred'`, ends the response and
returns without persisting. The `Except` result distinguishes the two exits. -/
def streamLoopPost (env : Env) (useFile : Bool) : Nat → Nat → Str → List Event × Except Str Str
  | 0, _, acc => ([], Except.ok acc)
  | fuel + 1, rc, acc =>
    if rc < 3 then
      if useFile then
        match env.fileOracle rc with
        | .ok text => ((simulateStreamingFromText text).map Event.chunk, Except.ok text)
        | .error e =>
          if rc + 1 = 3 then ([], Except.error (jsOr e defaultOpenAIErr))
          else streamLoopPost env useFile fuel (rc + 1) acc
      else
        match env.chatOracle rc with
        | .success frags =>
          let ne := nonEmptyFrags frags
          (ne.map Event.chunk, Except.ok (acc ++ ne.flatten))
        | .failure frags e =>
          let ne := nonEmptyFrags frags
          if rc + 1 = 3 then (ne.map Event.chunk, Except.error (jsOr e defaultOpenAIErr))
          else
            ((nonEmptyFrags frags).map Event.chunk ++
              (streamLoopPost env useFile fuel (rc + 1) (acc ++ (nonEmptyFrags frags).flatten)).1,
              (streamLoopPost env useFile fuel (rc + 1) (acc ++ (nonEmptyFrags frags).flatten)).2)
    else ([], Except.ok acc)

/-- The streaming part of the GET handler after the channel opens: start
event, loop chunks, assistant persistence, complete event. -/
def getOutcome (env : Env) (q : StreamQuery) (uid : Str) (conv : Conversation)
    (created : Option Conversation) : StreamOutcome :=
  let userMsg : Message := ⟨trim q.content, "user".data, conv.id, uid⟩
  let lr := streamLoopGet env (fileBranch q) 3 0 []
  let assistantMsg : Message := ⟨lr.2, "assistant".data, conv.id, uid⟩
  { events := Event.start userMsg conv :: (lr.1 ++ [Event.complete assistantMsg])
    createdConversation := created
    userMessage := userMsg
    assistantMessage := some assistantMsg }

/-- The streaming part of the POST handler after the channel opens: on loop
exhaustion the error event terminates the stream and nothing is persisted. -/
def postOutcome (env : Env) (q : StreamQuery) (uid : Str) (conv : Conversation)
    (created : Option Conversation) : StreamOutcome :=
  let userMsg : Message := ⟨trim q.content, "user".data, conv.id, uid⟩
  let lr := streamLoopPost env (fileBranch q) 3 0 []
  match lr.2 with
  | .ok full =>
    let assistantMsg : Message := ⟨full, "assistant".data, conv.id, uid⟩
    { events := Event.start userMsg conv :: (lr.1 ++ [Event.complete assistantMsg])
      createdConversation := created
      userMessage := userMsg
      assistantMessage := some assistantMsg }
  | .error e =>
    { events := Event.start userMsg conv :: (lr.1 ++ [Event.error e])
      createdConversation := created
      userMessage := userMsg
      assistantMessage := none }

/-- Conversation lookup used by both handlers:
`prisma.conversation.findFirst({ where: { id, userId } })`. -/
def findConversation (env : Env) (cid uid : Str) : Option Conversation :=
  env.conversations.find? (fun c => c.id == cid && c.userId == uid)

/-- The GET /api/messages/stream handler (`backend/routes/messages.js`):
content validation, query-string authentication, conversation resolution or
creation, then the streaming lifecycle. -/
def runGetStream (q : StreamQuery) (env : Env) : HandlerResult :=
  if (trim q.content).isEmpty then
    .httpError 400 "Message content is required".data
  else
    match q.authorization with
    | none => .httpError 401 "Authorization required".data
    | some auth =>
      match env.authUser auth with
      | none => .httpError 401 "Invalid token".data
      | some uid =>
        if strTruthy q.conversationId then
          match findConversation env (q.conversationId.getD []) uid with
          | none => .httpError 404 "Conversation not found".data
          | some conv => .streamed (getOutcome env q uid conv none)
        else
          let conv : Conversation := ⟨env.newConversationId, uid, routeTitle q.content⟩
          .streamed (getOutcome env q uid conv (some conv))

/-- The POST /api/messages/stream handler: same shape as GET except the
validation admits empty content when a file is attached, and the
retry-exhaustion path emits an `error` event and persists nothing. -/
def runPostStream (q : StreamQuery) (env : Env) : HandlerResult :=
  if (trim q.content).isEmpty && !q.hasFile then
    .httpError 400 "Message content or file is required".data
  else
    match q.authorization with
    | none => .httpError 401 "Authorization required".data
    | some auth =>
      match env.authUser auth with
      | none => .httpError 401 "Invalid token".data
      | some uid =>
        if strTruthy q.conversationId then
          match findConversation env (q.conversationId.getD []) uid with
          | none => .httpError 404 "Conversation not found".data
          | some conv => .streamed (postOutcome env q uid conv none)
        else
          let conv : Conversation := ⟨env.newConversationId, uid, routeTitle q.content⟩
          .streamed (postOutcome env q uid conv (some conv))


/-- callOpenAIWithRetry (OpenAI utility module), embedded with structural
fuel. Returns the number of invocations of the wrapped operation, the list of
backoff waits (milliseconds) performed, and the final outcome (`none` when the
loop guard was false from the start, i.e. `maxRetries = 0`). -/
def retryLoop (oracle : Nat → Except Str Str) (maxRetries : Nat) :
    Nat → Nat → Nat × List Nat × Option (Except Str Str)
  | 0, _ => (0, [], none)
  | fuel + 1, rc =>
    if rc < maxRetries then
      match oracle rc with
      | .ok a => (1, [], some (.ok a))
      | .error e =>
        if rc + 1 = maxRetries then (1, [], some (.error e))
        else
          let r := retryLoop oracle maxRetries fuel (rc + 1)
          (r.1 + 1, 1000 * (rc + 1) :: r.2.1, r.2.2)
    else (0, [], none)

/-- callOpenAIWithRetry with its default `maxRetries = 3` policy. -/
def callOpenAIWithRetry (oracle : Nat → Except Str Str) (maxRetries : Nat) :
    Nat × List Nat × Option (Except Str Str) :=
  retryLoop oracle maxRetries maxRetries 0

/-- A JSON-like value, enough to model the payloads passed to sendSSEEvent. -/
inductive JVal where
  | s (v : Str)
  | o (fields : List (Str × JVal))

/-- Field lookup with JavaScript object-literal semantics: a later binding of
the same key overwrites an earlier one. -/
def getField (k : Str) : List (Str × JVal) → Option JVal
  | [] => none
  | (k₁, v) :: rest =>
    match getField k rest with
    | some v₁ => some v₁
    | none => if k₁ == k then some v else none

/-- Whether a payload object carries a binding for a key. -/
def hasField (k : Str) (fields : List (Str × JVal)) : Bool :=
  fields.any (fun f => f.1 == k)

/-- sendSSEEvent (`utils/streamingUtils.js`): the serialized record is
`{ type, ...data }` - the tag binding first, then every payload binding. -/
def sseEventData (tag : Str) (data : List (Str × JVal)) : List (Str × JVal) :=
  ("type".data, JVal.s tag) :: data

/-- A message in the client-side list (`useMessages.js`): id, content, role,
and the streaming (in-progress) flag. -/
structure ClientMsg where
  id : Str
  content : Str
  role : Str
  streaming : Bool
  deriving DecidableEq, Repr

/-- The client-side state the streaming hook manipulates: the message list and
the `loading` / `isStreaming` flags. -/
structure ClientState where
  messages : List ClientMsg
  loading : Bool
  isStreamingFlag : Bool
  deriving DecidableEq, Repr

/-- JavaScript `hay.includes(needle)` on strings. -/
def strIncludes (hay needle : Str) : Bool :=
  needle.isPrefixOf hay ||
    match hay with
    | [] => false
    | _ :: t => strIncludes t needle

/-- The default client-side error text. -/
def defaultClientErr : Str := "Sorry, I encountered an error. Please try again.".data

/-- Client text for rate-limit / request-too-large provider errors. -/
def msgFileTooLarge : Str :=
  "The file is too large or I\x27m currently experiencing high demand. Please try with a smaller file or try again in a few minutes.".data

/-- Client text for tokens-per-minute provider errors. -/
def msgHighDemand : Str :=
  "I\x27m currently experiencing high demand. Please try again in a few minutes.".data

/-- The error text chosen by the `error` case of handleEventData in
`useMessages.js` (`data.error` is the payload; absent or empty is falsy). -/
def errorContentFor (err : Option Str) : Str :=
  match err with
  | none => defaultClientErr
  | some e =>
    if e.isEmpty then defaultClientErr
    else if strIncludes e "rate_limit_exceeded".data || strIncludes e "Request too large".data then
      msgFileTooLarge
    else if strIncludes e "tokens per min".data then msgHighDemand
    else "Error: ".data ++ e

/-- The error text chosen by handleStreamError in `useMessages.js` (no
`Error: ...` fallback here, unlike the event case). -/
def streamErrorContentFor (info : Option Str) : Str :=
  match info with
  | none => defaultClientErr
  | some e =>
    if e.isEmpty then defaultClientErr
    else if strIncludes e "rate_limit_exceeded".data || strIncludes e "Request too large".data then
      msgFileTooLarge
    else if strIncludes e "tokens per min".data then msgHighDemand
    else defaultClientErr

/-- The `error` case of handleEventData: drop the streaming placeholder,
append a synthesized assistant error message, clear both flags. -/
def handleErrorEventData (streamingMessageId errId : Str) (err : Option Str)
    (s : ClientState) : ClientState :=
  let without := s.messages.filter (fun m => !(m.id == streamingMessageId))
  { messages := without ++ [⟨errId, errorContentFor err, "assistant".data, false⟩]
    loading := false
    isStreamingFlag := false }

/-- handleStreamError: same cleanup for transport-level failures. -/
def handleStreamError (streamingMessageId errId : Str) (info : Option Str)
    (s : ClientState) : ClientState :=
  let without := s.messages.filter (fun m => !(m.id == streamingMessageId))
  { messages := without ++ [⟨errId, streamErrorContentFor info, "assistant".data, false⟩]
    loading := false
    isStreamingFlag := false }

/-- Event classifiers for the trace invariant. -/
def isStartB : Event → Bool
  | .start _ _ => true
  | _ => false

/-- Whether an event is a chunk. -/
def isChunkB : Event → Bool
  | .chunk _ => true
  | _ => false

/-- Whether an event is terminal (`complete` or `error`). -/
def isTerminalB : Event → Bool
  | .complete _ => true
  | .error _ => true
  | _ => false

/-- The tail of a well-formed trace: chunks followed by exactly one terminal
event, nothing after it. -/
def wfTail : List Event → Bool
  | [] => false
  | [e] => isTerminalB e
  | e :: rest => isChunkB e && wfTail rest

/-- A well-formed trace: one start first, chunks, one terminal event last. -/
def wellFormedTrace : List Event → Bool
  | [] => false
  | e :: rest => isStartB e && wfTail rest

/-- Trace well-formedness of a handler result (vacuous for synchronous HTTP
errors, where no event is emitted). -/
def traceWF : HandlerResult → Bool
  | .httpError _ _ => true
  | .streamed o => wellFormedTrace o.events

/-- The chunk payload of an event, when it is a chunk. -/
def chunkContentOf : Event → Option Str
  | .chunk c => some c
  | _ => none

/-- Concatenation of the chunk payloads of a trace, in emission order. -/
def chunkConcat (evs : List Event) : Str :=
  (evs.filterMap chunkContentOf).flatten

/-- Whether the provider attempt `k` of the branch a request takes succeeds. -/
def succAtB (env : Env) (useFile : Bool) (k : Nat) : Bool :=
  if useFile then
    match env.fileOracle k with
    | .ok _ => true
    | .error _ => false
  else
    match env.chatOracle k with
    | .success _ => true
    | .failure _ _ => false

/-- The chunk-reconstruction contract of a streamed result: the persisted
assistant message exists and its content is the concatenation of the emitted
chunk payloads. -/
def chunkMatchesPersisted : HandlerResult → Prop
  | .httpError _ _ => True
  | .streamed o =>
    match o.assistantMessage with
    | some am => chunkConcat o.events = am.content
    | none => False

/-- The persisted assistant message of a handler result, if any. -/
def persistedAssistant : HandlerResult → Option Message
  | .httpError _ _ => none
  | .streamed o => o.assistantMessage

/-- The last emitted event of a handler result, if any. -/
def lastEventOf : HandlerResult → Option Event
  | .httpError _ _ => none
  | .streamed o => o.events.getLast?

/-- Whether an optional event is a `complete` event. -/
def isCompleteEvO : Option Event → Bool
  | some (.complete _) => true
  | _ => false

/-- Whether an optional event is an `error` event. -/
def isErrorEvO : Option Event → Bool
  | some (.error _) => true
  | _ => false

/-- The title of the conversation a handler run created, if it created one. -/
def createdTitle : HandlerResult → Option Str
  | .httpError _ _ => none
  | .streamed o => o.createdConversation.map (fun c => c.title)


/-- splitSpace never returns the empty list (JS `split` yields at least one piece). -/
theorem splitSpace_ne_nil (l : Str) : splitSpace l ≠ [] := by
  cases l with
  | nil => simp [splitSpace]
  | cons c cs =>
    simp only [splitSpace]
    split
    · simp
    · split <;> simp

/-- splitSpace on a leading space: an empty first piece. -/
theorem splitSpace_space (cs : Str) : splitSpace (' ' :: cs) = [] :: splitSpace cs := by
  simp [splitSpace]

/-- splitSpace on a non-space head: the head joins the first piece. -/
theorem splitSpace_nonspace (c : Char) (cs : Str) (hc : ¬c = ' ') (w : Str) (ws : List Str)
    (h : splitSpace cs = w :: ws) : splitSpace (c :: cs) = (c :: w) :: ws := by
  simp [splitSpace, hc, h]

/-- Re-joining the simulated chunk sequence restores the original text. -/
theorem simulateStreamingFromText_flatten (t : Str) :
    (simulateStreamingFromText t).flatten = t := by
  unfold simulateStreamingFromText
  induction t with
  | nil => rfl
  | cons c cs ih =>
    by_cases hc : c = ' '
    · subst hc
      rw [splitSpace_space]
      cases h : splitSpace cs with
      | nil => exact absurd h (splitSpace_ne_nil cs)
      | cons w ws =>
        rw [h] at ih
        simp only [spaceChunks, List.map_cons, List.flatten_cons, List.nil_append,
          List.cons_append] at ih ⊢
        rw [ih]
    · cases h : splitSpace cs with
      | nil => exact absurd h (splitSpace_ne_nil cs)
      | cons w ws =>
        rw [splitSpace_nonspace c cs hc w ws h]
        rw [h] at ih
        simp only [spaceChunks, List.map_cons, List.flatten_cons, List.cons_append] at ih ⊢
        rw [ih]

/-- chunkConcat distributes over append. -/
theorem chunkConcat_append (a b : List Event) :
    chunkConcat (a ++ b) = chunkConcat a ++ chunkConcat b := by
  simp [chunkConcat, List.filterMap_append]

/-- chunkConcat of a pure chunk list is the flattening of the payloads. -/
theorem chunkConcat_map_chunk (l : List Str) :
    chunkConcat (l.map Event.chunk) = l.flatten := by
  induction l with
  | nil => rfl
  | cons w ws ih =>
    simp only [List.map_cons, chunkConcat, List.filterMap_cons, chunkContentOf,
      List.flatten_cons] at ih ⊢
    rw [ih]

/-- A start event contributes nothing to chunkConcat. -/
theorem chunkConcat_start (m : Message) (conv : Conversation) (l : List Event) :
    chunkConcat (Event.start m conv :: l) = chunkConcat l := by
  simp [chunkConcat, List.filterMap_cons, chunkContentOf]

/-- A complete event contributes nothing to chunkConcat. -/
theorem chunkConcat_complete (m : Message) (l : List Event) :
    chunkConcat (l ++ [Event.complete m]) = chunkConcat l := by
  simp [chunkConcat_append, chunkConcat, List.filterMap_cons, chunkContentOf]

/-- An error event contributes nothing to chunkConcat. -/
theorem chunkConcat_error (e : Str) (l : List Event) :
    chunkConcat (l ++ [Event.error e]) = chunkConcat l := by
  simp [chunkConcat_append, chunkConcat, List.filterMap_cons, chunkContentOf]

/-- A chunk run followed by one terminal event is a well-formed trace tail. -/
theorem wfTail_append_terminal (l : List Event) (hl : ∀ e ∈ l, isChunkB e = true)
    (t : Event) (ht : isTerminalB t = true) : wfTail (l ++ [t]) = true := by
  induction l with
  | nil => simpa [wfTail]
  | cons e l ih =>
    have he := hl e (List.mem_cons_self e l)
    have h₂ : ∀ x ∈ l, isChunkB x = true := fun x hx => hl x (List.mem_cons_of_mem _ hx)
    cases l with
    | nil => simp [wfTail, he, ht]
    | cons f l₂ =>
      rw [List.cons_append, List.cons_append]
      show (isChunkB e && wfTail (f :: (l₂ ++ [t]))) = true
      rw [he, ← List.cons_append, ih h₂]
      rfl

/-- A start, a chunk run and one terminal event form a well-formed trace. -/
theorem wellFormedTrace_shape (m : Message) (conv : Conversation) (l : List Event)
    (hl : ∀ e ∈ l, isChunkB e = true) (t : Event) (ht : isTerminalB t = true) :
    wellFormedTrace (Event.start m conv :: (l ++ [t])) = true := by
  show (isStartB (Event.start m conv) && wfTail (l ++ [t])) = true
  rw [wfTail_append_terminal l hl t ht]
  rfl

/-- Every event the GET retry loop emits is a chunk event. -/
theorem streamLoopGet_chunks (env : Env) :
    ∀ fuel u rc acc e, e ∈ (streamLoopGet env u fuel rc acc).1 → isChunkB e = true := by
  intro fuel
  induction fuel with
  | zero => intro u rc acc e he; simp [streamLoopGet] at he
  | succ n ih =>
    intro u rc acc e he
    rw [streamLoopGet] at he
    split at he
    · split at he
      · split at he
        · simp only [List.mem_map] at he
          obtain ⟨c, -, rfl⟩ := he
          rfl
        · split at he
          · simp only [List.mem_singleton] at he
            subst he; rfl
          · exact ih u _ _ e he
      · split at he
        · simp only [List.mem_map] at he
          obtain ⟨c, -, rfl⟩ := he
          rfl
        · split at he
          · simp only [List.mem_append, List.mem_map, List.mem_singleton] at he
            rcases he with ⟨c, -, rfl⟩ | rfl <;> rfl
          · simp only [List.mem_append, List.mem_map] at he
            rcases he with ⟨c, -, rfl⟩ | he
            · rfl
            · exact ih u _ _ e he
    · simp at he

/-- Every event the POST retry loop emits is a chunk event. -/
theorem streamLoopPost_chunks (env : Env) :
    ∀ fuel u rc acc e, e ∈ (streamLoopPost env u fuel rc acc).1 → isChunkB e = true := by
  intro fuel
  induction fuel with
  | zero => intro u rc acc e he; simp [streamLoopPost] at he
  | succ n ih =>
    intro u rc acc e he
    rw [streamLoopPost] at he
    split at he
    · split at he
      · split at he
        · simp only [List.mem_map] at he
          obtain ⟨c, -, rfl⟩ := he
          rfl
        · split at he
          · simp at he
          · exact ih u _ _ e he
      · split at he
        · simp only [List.mem_map] at he
          obtain ⟨c, -, rfl⟩ := he
          rfl
        · split at he
          · simp only [List.mem_map] at he
            obtain ⟨c, -, rfl⟩ := he
            rfl
          · simp only [List.mem_append, List.mem_map] at he
            rcases he with ⟨c, -, rfl⟩ | he
            · rfl
            · exact ih u _ _ e he
    · simp at he

/-- The GET streaming lifecycle always emits a well-formed trace. -/
theorem getOutcome_wf (env : Env) (q : StreamQuery) (uid : Str) (conv : Conversation)
    (created : Option Conversation) :
    wellFormedTrace (getOutcome env q uid conv created).events = true := by
  simp only [getOutcome]
  exact wellFormedTrace_shape _ _ _
    (fun e he => streamLoopGet_chunks env 3 (fileBranch q) 0 [] e he) _ rfl

/-- The POST streaming lifecycle always emits a well-formed trace. -/
theorem postOutcome_wf (env : Env) (q : StreamQuery) (uid : Str) (conv : Conversation)
    (created : Option Conversation) :
    wellFormedTrace (postOutcome env q uid conv created).events = true := by
  simp only [postOutcome]
  split
  · exact wellFormedTrace_shape _ _ _
      (fun e he => streamLoopPost_chunks env 3 (fileBranch q) 0 [] e he) _ rfl
  · exact wellFormedTrace_shape _ _ _
      (fun e he => streamLoopPost_chunks env 3 (fileBranch q) 0 [] e he) _ rfl

/-- C1: for every streaming request processed by either stream handler, the
emitted event trace consists of exactly one `start` event first, zero or more
`chunk` events, and exactly one terminal event (`complete` or `error`) last,
with no event after the terminal one (vacuously for requests rejected before
the channel opens, which emit no events). -/
theorem c1_stream_trace_shape (q : StreamQuery) (env : Env) :
    traceWF (runGetStream q env) = true ∧ traceWF (runPostStream q env) = true := by
  constructor
  · unfold runGetStream
    repeat' split
    all_goals first
      | rfl
      | (simp only [traceWF]; exact getOutcome_wf _ _ _ _ _)
  · unfold runPostStream
    repeat' split
    all_goals first
      | rfl
      | (simp only [traceWF]; exact postOutcome_wf _ _ _ _ _)

/-- When some chat attempt within the remaining fuel succeeds, the GET loop
accumulator equals the previous accumulator plus the emitted chunk payloads. -/
theorem streamLoopGet_chat_concat (env : Env) :
    ∀ fuel rc acc, (∃ k, rc ≤ k ∧ k < rc + fuel ∧ k < 3 ∧ succAtB env false k = true) →
    (streamLoopGet env false fuel rc acc).2 =
      acc ++ chunkConcat (streamLoopGet env false fuel rc acc).1 := by
  intro fuel
  induction fuel with
  | zero =>
    rintro rc acc ⟨k, hk1, hk2, -, -⟩
    omega
  | succ n ih =>
    rintro rc acc ⟨k, hk1, hk2, hk3, hk4⟩
    have h3 : rc < 3 := Nat.lt_of_le_of_lt hk1 hk3
    rw [streamLoopGet, if_pos h3]
    cases hor : env.chatOracle rc with
    | success frags =>
      simp only [Bool.false_eq_true, if_false, hor, chunkConcat_map_chunk]
    | failure frags e =>
      have hne : ¬k = rc := by
        intro h
        rw [h, succAtB] at hk4
        simp [hor] at hk4
      by_cases hfin : rc + 1 = 3
      · omega
      · simp only [Bool.false_eq_true, if_false, hor, if_neg hfin]
        rw [chunkConcat_append, chunkConcat_map_chunk]
        rw [ih (rc + 1) (acc ++ (nonEmptyFrags frags).flatten) ⟨k, by omega, by omega, hk3, hk4⟩]
        simp [List.append_assoc]

/-- When some file attempt within the remaining fuel succeeds, the GET loop
result equals the emitted chunk payloads (the accumulator is overwritten). -/
theorem streamLoopGet_file_concat (env : Env) :
    ∀ fuel rc acc, (∃ k, rc ≤ k ∧ k < rc + fuel ∧ k < 3 ∧ succAtB env true k = true) →
    (streamLoopGet env true fuel rc acc).2 =
      chunkConcat (streamLoopGet env true fuel rc acc).1 := by
  intro fuel
  induction fuel with
  | zero =>
    rintro rc acc ⟨k, hk1, hk2, -, -⟩
    omega
  | succ n ih =>
    rintro rc acc ⟨k, hk1, hk2, hk3, hk4⟩
    have h3 : rc < 3 := Nat.lt_of_le_of_lt hk1 hk3
    rw [streamLoopGet, if_pos h3]
    cases hor : env.fileOracle rc with
    | ok text =>
      simp only [if_true, hor, chunkConcat_map_chunk, simulateStreamingFromText_flatten]
    | error e =>
      have hne : ¬k = rc := by
        intro h
        rw [h, succAtB] at hk4
        simp [hor] at hk4
      by_cases hfin : rc + 1 = 3
      · omega
      · simp only [if_true, hor, if_neg hfin]
        exact ih (rc + 1) acc ⟨k, by omega, by omega, hk3, hk4⟩

/-- POST analogue of the chat-branch concatenation lemma. -/
theorem streamLoopPost_chat_concat (env : Env) :
    ∀ fuel rc acc, (∃ k, rc ≤ k ∧ k < rc + fuel ∧ k < 3 ∧ succAtB env false k = true) →
    (streamLoopPost env false fuel rc acc).2 =
      Except.ok (acc ++ chunkConcat (streamLoopPost env false fuel rc acc).1) := by
  intro fuel
  induction fuel with
  | zero =>
    rintro rc acc ⟨k, hk1, hk2, -, -⟩
    omega
  | succ n ih =>
    rintro rc acc ⟨k, hk1, hk2, hk3, hk4⟩
    have h3 : rc < 3 := Nat.lt_of_le_of_lt hk1 hk3
    rw [streamLoopPost, if_pos h3]
    cases hor : env.chatOracle rc with
    | success frags =>
      simp only [Bool.false_eq_true, if_false, hor, chunkConcat_map_chunk]
    | failure frags e =>
      have hne : ¬k = rc := by
        intro h
        rw [h, succAtB] at hk4
        simp [hor] at hk4
      by_cases hfin : rc + 1 = 3
      · omega
      · simp only [Bool.false_eq_true, if_false, hor, if_neg hfin]
        rw [chunkConcat_append, chunkConcat_map_chunk]
        rw [ih (rc + 1) (acc ++ (nonEmptyFrags frags).flatten) ⟨k, by omega, by omega, hk3, hk4⟩]
        simp [List.append_assoc]

/-- POST analogue of the file-branch concatenation lemma. -/
theorem streamLoopPost_file_concat (env : Env) :
    ∀ fuel rc acc, (∃ k, rc ≤ k ∧ k < rc + fuel ∧ k < 3 ∧ succAtB env true k = true) →
    (streamLoopPost env true fuel rc acc).2 =
      Except.ok (chunkConcat (streamLoopPost env true fuel rc acc).1) := by
  intro fuel
  induction fuel with
  | zero =>
    rintro rc acc ⟨k, hk1, hk2, -, -⟩
    omega
  | succ n ih =>
    rintro rc acc ⟨k, hk1, hk2, hk3, hk4⟩
    have h3 : rc < 3 := Nat.lt_of_le_of_lt hk1 hk3
    rw [streamLoopPost, if_pos h3]
    cases hor : env.fileOracle rc with
    | ok text =>
      simp only [if_true, hor, chunkConcat_map_chunk, simulateStreamingFromText_flatten]
    | error e =>
      have hne : ¬k = rc := by
        intro h
        rw [h, succAtB] at hk4
        simp [hor] at hk4
      by_cases hfin : rc + 1 = 3
      · omega
      · simp only [if_true, hor, if_neg hfin]
        exact ih (rc + 1) acc ⟨k, by omega, by omega, hk3, hk4⟩

/-- When some provider attempt succeeds, the GET outcome satisfies the
chunk-reconstruction contract. -/
theorem getOutcome_chunkMatch (env : Env) (q : StreamQuery) (uid : Str) (conv : Conversation)
    (created : Option Conversation)
    (hs : ∃ k, k < 3 ∧ succAtB env (fileBranch q) k = true) :
    chunkMatchesPersisted (HandlerResult.streamed (getOutcome env q uid conv created)) := by
  obtain ⟨k, hk3, hks⟩ := hs
  simp only [getOutcome, chunkMatchesPersisted]
  rw [chunkConcat_start, chunkConcat_complete]
  cases hu : fileBranch q with
  | false =>
    rw [hu] at hks
    exact (streamLoopGet_chat_concat env 3 0 []
      ⟨k, Nat.zero_le _, by omega, hk3, hks⟩).symm.trans (List.nil_append _)
  | true =>
    rw [hu] at hks
    exact (streamLoopGet_file_concat env 3 0 []
      ⟨k, Nat.zero_le _, by omega, hk3, hks⟩).symm

/-- When some provider attempt succeeds, the POST outcome satisfies the
chunk-reconstruction contract. -/
theorem postOutcome_chunkMatch (env : Env) (q : StreamQuery) (uid : Str) (conv : Conversation)
    (created : Option Conversation)
    (hs : ∃ k, k < 3 ∧ succAtB env (fileBranch q) k = true) :
    chunkMatchesPersisted (HandlerResult.streamed (postOutcome env q uid conv created)) := by
  obtain ⟨k, hk3, hks⟩ := hs
  simp only [postOutcome]
  cases hu : fileBranch q with
  | false =>
    rw [hu] at hks
    have h := streamLoopPost_chat_concat env 3 0 [] ⟨k, Nat.zero_le _, by omega, hk3, hks⟩
    rw [h, List.nil_append]
    simp only [chunkMatchesPersisted]
    rw [chunkConcat_start, chunkConcat_complete]
  | true =>
    rw [hu] at hks
    have h := streamLoopPost_file_concat env 3 0 [] ⟨k, Nat.zero_le _, by omega, hk3, hks⟩
    rw [h]
    simp only [chunkMatchesPersisted]
    rw [chunkConcat_start, chunkConcat_complete]

/-- C2: whenever the provider call succeeds (some attempt within the retry
budget), concatenating the `content` fields of the emitted `chunk` events in
emission order yields exactly the content of the persisted assistant message,
for both stream handlers; and the simulated-streaming chunking of a
file-completion response (split on spaces, first chunk bare, later chunks
space-prefixed) reconstitutes the original text. -/
theorem c2_chunk_concat (q : StreamQuery) (env : Env) (t : Str)
    (hs : ∃ k, k < 3 ∧ succAtB env (fileBranch q) k = true) :
    chunkMatchesPersisted (runGetStream q env) ∧
      chunkMatchesPersisted (runPostStream q env) ∧
      (simulateStreamingFromText t).flatten = t := by
  refine ⟨?_, ?_, simulateStreamingFromText_flatten t⟩
  · unfold runGetStream
    repeat' split
    all_goals first
      | trivial
      | exact getOutcome_chunkMatch _ _ _ _ _ hs
  · unfold runPostStream
    repeat' split
    all_goals first
      | trivial
      | exact postOutcome_chunkMatch _ _ _ _ _ hs

/-- Witness for C2 at a concrete request: a file request whose provider
returns "alpha beta" on the first attempt. -/
theorem c2_chunk_concat_witness :
    chunkMatchesPersisted (runGetStream
        ⟨none, "check this".data, some "tok".data, true, some "a.pdf".data, some "xx".data⟩
        ⟨fun _ => some "u1".data, [], fun _ => ChatAttempt.failure [] "x".data,
          fun _ => Except.ok "alpha beta".data, "c1".data⟩) ∧
      chunkMatchesPersisted (runPostStream
        ⟨none, "check this".data, some "tok".data, true, some "a.pdf".data, some "xx".data⟩
        ⟨fun _ => some "u1".data, [], fun _ => ChatAttempt.failure [] "x".data,
          fun _ => Except.ok "alpha beta".data, "c1".data⟩) ∧
      (simulateStreamingFromText "alpha beta".data).flatten = "alpha beta".data := by
  exact c2_chunk_concat _ _ _ ⟨0, by omega, by rfl⟩

/-- C4: a provider operation that fails on every attempt is invoked exactly 3
times by callOpenAIWithRetry, with linear-backoff waits of 1000ms then 2000ms
between attempts, and the loop surfaces the final error instead of a success. -/
theorem c4_retry_bound (oracle : Nat → Except Str Str) (errs : Nat → Str)
    (h : ∀ n, n < 3 → oracle n = Except.error (errs n)) :
    callOpenAIWithRetry oracle 3 = (3, [1000, 2000], some (Except.error (errs 2))) := by
  have h0 := h 0 (by omega)
  have h1 := h 1 (by omega)
  have h2 := h 2 (by omega)
  unfold callOpenAIWithRetry
  rw [show (3 : Nat) = 2 + 1 from rfl]
  rw [retryLoop, h0]
  rw [show (2 : Nat) = 1 + 1 from rfl]
  rw [retryLoop, h1]
  rw [show (1 : Nat) = 0 + 1 from rfl]
  rw [retryLoop, h2]
  simp

/-- Witness for C4 at a concrete always-failing oracle. -/
theorem c4_retry_bound_witness :
    callOpenAIWithRetry (fun _ => Except.error "boom".data) 3 =
      (3, [1000, 2000], some (Except.error "boom".data)) :=
  c4_retry_bound (fun _ => Except.error "boom".data) (fun _ => "boom".data)
    (fun _ _ => rfl)

/-- When every attempt fails, the GET loop ends with the apology fallback as
its `fullResponse` (the invariant `rc + fuel = 3` holds at every call site). -/
theorem streamLoopGet_allfail (env : Env) (u : Bool) :
    ∀ fuel rc acc, rc + fuel = 3 → rc < 3 →
      (∀ k, k < 3 → succAtB env u k = false) →
      (streamLoopGet env u fuel rc acc).2 = apology := by
  intro fuel
  induction fuel with
  | zero => intro rc acc h1 h2 _; omega
  | succ n ih =>
    intro rc acc h1 h2 hf
    rw [streamLoopGet, if_pos h2]
    cases u with
    | true =>
      cases ho : env.fileOracle rc with
      | ok text =>
        have := hf rc h2
        rw [succAtB] at this
        simp [ho] at this
      | error e =>
        by_cases hfin : rc + 1 = 3
        · simp [hfin]
        · simp only [if_true, if_neg hfin]
          exact ih (rc + 1) acc (by omega) (by omega) hf
    | false =>
      cases ho : env.chatOracle rc with
      | success frags =>
        have := hf rc h2
        rw [succAtB] at this
        simp [ho] at this
      | failure frags e =>
        by_cases hfin : rc + 1 = 3
        · simp [hfin]
        · simp only [Bool.false_eq_true, if_false, if_neg hfin]
          exact ih (rc + 1) (acc ++ (nonEmptyFrags frags).flatten) (by omega) (by omega) hf

/-- When every attempt fails, the POST loop exits through the error path. -/
theorem streamLoopPost_allfail (env : Env) (u : Bool) :
    ∀ fuel rc acc, rc + fuel = 3 → rc < 3 →
      (∀ k, k < 3 → succAtB env u k = false) →
      ∃ e, (streamLoopPost env u fuel rc acc).2 = Except.error e := by
  intro fuel
  induction fuel with
  | zero => intro rc acc h1 h2 _; omega
  | succ n ih =>
    intro rc acc h1 h2 hf
    rw [streamLoopPost, if_pos h2]
    cases u with
    | true =>
      cases ho : env.fileOracle rc with
      | ok text =>
        have := hf rc h2
        rw [succAtB] at this
        simp [ho] at this
      | error e =>
        by_cases hfin : rc + 1 = 3
        · exact ⟨jsOr e defaultOpenAIErr, by simp [hfin]⟩
        · simp only [if_true, if_neg hfin]
          exact ih (rc + 1) acc (by omega) (by omega) hf
    | false =>
      cases ho : env.chatOracle rc with
      | success frags =>
        have := hf rc h2
        rw [succAtB] at this
        simp [ho] at this
      | failure frags e =>
        by_cases hfin : rc + 1 = 3
        · exact ⟨jsOr e defaultOpenAIErr, by simp [hfin]⟩
        · simp only [Bool.false_eq_true, if_false, if_neg hfin]
          exact ih (rc + 1) (acc ++ (nonEmptyFrags frags).flatten) (by omega) (by omega) hf

/-- The amended retry-exhaustion contract of the POST handler: nothing is
persisted and the last event is an `error`. -/
def c3postHolds : HandlerResult → Bool
  | .httpError _ _ => true
  | .streamed o => o.assistantMessage.isNone && isErrorEvO o.events.getLast?

/-- The amended retry-exhaustion contract of the GET handler: the apology
fallback is persisted as the assistant message and the last event is
`complete`. -/
def c3getHolds : HandlerResult → Bool
  | .httpError _ _ => true
  | .streamed o =>
    (match o.assistantMessage with
     | some am => am.content == apology
     | none => false) && isCompleteEvO o.events.getLast?

/-- On exhaustion the GET outcome persists the apology and completes. -/
theorem getOutcome_allfail (env : Env) (q : StreamQuery) (uid : Str) (conv : Conversation)
    (created : Option Conversation)
    (hf : ∀ k, k < 3 → succAtB env (fileBranch q) k = false) :
    c3getHolds (HandlerResult.streamed (getOutcome env q uid conv created)) = true := by
  have h := streamLoopGet_allfail env (fileBranch q) 3 0 [] rfl (by omega) hf
  simp only [getOutcome, c3getHolds, h]
  rw [← List.cons_append, List.getLast?_concat]
  simp [isCompleteEvO]

/-- On exhaustion the POST outcome persists nothing and errors out. -/
theorem postOutcome_allfail (env : Env) (q : StreamQuery) (uid : Str) (conv : Conversation)
    (created : Option Conversation)
    (hf : ∀ k, k < 3 → succAtB env (fileBranch q) k = false) :
    c3postHolds (HandlerResult.streamed (postOutcome env q uid conv created)) = true := by
  obtain ⟨e, he⟩ := streamLoopPost_allfail env (fileBranch q) 3 0 [] rfl (by omega) hf
  simp only [postOutcome, he, c3postHolds]
  rw [← List.cons_append, List.getLast?_concat]
  simp [isErrorEvO]

/-- C3 counterexample: a GET request and an always-failing provider. -/
def qC3 : StreamQuery := ⟨none, "Hi".data, some "tok".data, false, none, none⟩

/-- Environment whose provider fails on every attempt (for C3). -/
def envC3 : Env :=
  ⟨fun _ => some "u1".data, [], fun _ => ChatAttempt.failure [] "boom".data,
    fun _ => Except.error "boom".data, "c1".data⟩

/-- C3 as stated is false: on the GET handler a retry-exhausted request still
persists an assistant message (the apology fallback) and its terminal event is
`complete`, not `error`. -/
theorem c3_counterexample :
    (persistedAssistant (runGetStream qC3 envC3)).isSome = true ∧
      isCompleteEvO (lastEventOf (runGetStream qC3 envC3)) = true := by
  constructor
  · rfl
  · rfl

/-- C3 amended: after exhausting all retries, the POST handler persists no
assistant message and terminates with an `error` event, while the GET handler
persists the apology fallback as the assistant message and terminates with a
`complete` event. -/
theorem c3_amended (q : StreamQuery) (env : Env)
    (hf : ∀ k, k < 3 → succAtB env (fileBranch q) k = false) :
    c3postHolds (runPostStream q env) = true ∧ c3getHolds (runGetStream q env) = true := by
  constructor
  · unfold runPostStream
    repeat' split
    all_goals first
      | rfl
      | exact postOutcome_allfail _ _ _ _ _ hf
  · unfold runGetStream
    repeat' split
    all_goals first
      | rfl
      | exact getOutcome_allfail _ _ _ _ _ hf

/-- Witness for the amended C3 at the concrete always-failing environment. -/
theorem c3_amended_witness :
    c3postHolds (runPostStream qC3 envC3) = true ∧
      c3getHolds (runGetStream qC3 envC3) = true :=
  c3_amended qC3 envC3 (fun k hk => by interval_cases k <;> rfl)

/-- When every chat attempt fails with message `errs k`, the POST loop ends
with exactly `errs 2 || 'OpenAI API error occurred'` as its error payload. -/
theorem streamLoopPost_allfail_msg (env : Env) (errs : Nat → Str)
    (hf : ∀ k, k < 3 → ∃ frags, env.chatOracle k = ChatAttempt.failure frags (errs k)) :
    ∀ fuel rc acc, rc + fuel = 3 → rc < 3 →
      (streamLoopPost env false fuel rc acc).2 =
        Except.error (jsOr (errs 2) defaultOpenAIErr) := by
  intro fuel
  induction fuel with
  | zero => intro rc acc h1 h2; omega
  | succ n ih =>
    intro rc acc h1 h2
    obtain ⟨frags, ho⟩ := hf rc h2
    rw [streamLoopPost, if_pos h2]
    by_cases hfin : rc + 1 = 3
    · have : rc = 2 := by omega
      subst this
      simp [ho, hfin]
    · simp only [Bool.false_eq_true, if_false, ho, if_neg hfin]
      exact ih (rc + 1) (acc ++ (nonEmptyFrags frags).flatten) (by omega) (by omega)

/-- The amended error-payload contract of the POST handler: the terminal
`error` event carries the raw provider message (with only the emptiness
fallback applied) and nothing is persisted. -/
def c8Holds (raw : Str) : HandlerResult → Prop
  | .httpError _ _ => True
  | .streamed o =>
    o.events.getLast? = some (Event.error (jsOr raw defaultOpenAIErr)) ∧
      o.assistantMessage = none

/-- C8 counterexample request: text-only POST. -/
def qC8 : StreamQuery := ⟨none, "Hi".data, some "tok".data, false, none, none⟩

/-- Environment whose provider always fails with a raw transport message. -/
def envC8 : Env :=
  ⟨fun _ => some "u1".data, [],
    fun _ => ChatAttempt.failure [] "connect ECONNREFUSED 10.0.0.5:443".data,
    fun _ => Except.error "x".data, "c1".data⟩

/-- C8 as stated is false: the POST handler emits the raw provider exception
text verbatim as the terminal `error` payload. -/
theorem c8_counterexample :
    lastEventOf (runPostStream qC8 envC8) =
      some (Event.error "connect ECONNREFUSED 10.0.0.5:443".data) := by
  rfl

/-- C8 amended: after the channel opens, the only `error` event the POST
handler emits on retry exhaustion carries the raw provider error message
(`openaiError.message`), falling back to the fixed default only when that
message is empty; the sanitizing translation in `utils/errorHandler.js` is
never invoked by the stream handlers. -/
theorem c8_amended (q : StreamQuery) (env : Env) (errs : Nat → Str)
    (hq : fileBranch q = false)
    (hf : ∀ k, k < 3 → ∃ frags, env.chatOracle k = ChatAttempt.failure frags (errs k)) :
    c8Holds (errs 2) (runPostStream q env) := by
  have he := streamLoopPost_allfail_msg env errs hf 3 0 [] rfl (by omega)
  unfold runPostStream
  repeat' split
  all_goals first
    | trivial
    | (simp only [postOutcome, hq, he, c8Holds]
       rw [← List.cons_append, List.getLast?_concat]
       exact ⟨rfl, trivial⟩)

/-- Witness for the amended C8 at the concrete raw-failure environment. -/
theorem c8_amended_witness :
    c8Holds "connect ECONNREFUSED 10.0.0.5:443".data (runPostStream qC8 envC8) :=
  c8_amended qC8 envC8 (fun _ => "connect ECONNREFUSED 10.0.0.5:443".data) rfl
    (fun _ _ => ⟨[], rfl⟩)

/-- C7: with a valid credential for `uid` and a conversation id that no
conversation owned by `uid` bears - whether because it does not exist at all
or because it belongs to another user - both stream handlers return the same
fixed 404 response, never the conversation data; the response is a constant,
so absence and foreign ownership are indistinguishable to the caller. -/
theorem c7_ownership_isolation (q : StreamQuery) (env : Env) (auth uid cid : Str)
    (hc : (trim q.content).isEmpty = false)
    (ha : q.authorization = some auth)
    (hu : env.authUser auth = some uid)
    (hcid : q.conversationId = some cid)
    (hne : cid.isEmpty = false)
    (hown : ∀ c ∈ env.conversations, ¬(c.id = cid ∧ c.userId = uid)) :
    runGetStream q env = HandlerResult.httpError 404 "Conversation not found".data ∧
      runPostStream q env = HandlerResult.httpError 404 "Conversation not found".data := by
  have hfind : findConversation env cid uid = none := by
    rw [findConversation, List.find?_eq_none]
    intro c hcmem
    have h := hown c hcmem
    simp only [Bool.and_eq_true, beq_iff_eq]
    tauto
  constructor
  · unfold runGetStream
    simp only [hc, Bool.false_eq_true, if_false, ha, hu, hcid, strTruthy, hne,
      Bool.not_false, if_true, Option.getD_some, hfind]
  · unfold runPostStream
    simp only [hc, Bool.false_and, Bool.false_eq_true, if_false, ha, hu, hcid, strTruthy,
      hne, Bool.not_false, if_true, Option.getD_some, hfind]

/-- Witness request for C7: user alice asks for bob's conversation. -/
def qC7 : StreamQuery := ⟨some "c9".data, "Hi".data, some "tok".data, false, none, none⟩

/-- Witness environment for C7: the conversation `c9` exists but belongs to bob. -/
def envC7 : Env :=
  ⟨fun _ => some "alice".data, [⟨"c9".data, "bob".data, "t".data⟩],
    fun _ => ChatAttempt.success ["ok".data], fun _ => Except.ok "ok".data, "cN".data⟩

/-- Witness for C7 at the concrete foreign-owned conversation. -/
theorem c7_ownership_isolation_witness :
    runGetStream qC7 envC7 = HandlerResult.httpError 404 "Conversation not found".data ∧
      runPostStream qC7 envC7 = HandlerResult.httpError 404 "Conversation not found".data :=
  c7_ownership_isolation qC7 envC7 "tok".data "alice".data "c9".data rfl rfl rfl rfl rfl
    (by decide)

/-- C9: on an `error` event or a transport-level failure, the client removes
the in-progress assistant placeholder (no message with its id remains),
appends a locally synthesized assistant error message (not marked streaming),
and clears both the `loading` and `isStreaming` flags. -/
theorem c9_error_cleanup (sid eid : Str) (err info : Option Str) (s : ClientState)
    (h : ¬eid = sid) :
    (∀ m ∈ (handleErrorEventData sid eid err s).messages, ¬m.id = sid) ∧
      (handleErrorEventData sid eid err s).loading = false ∧
      (handleErrorEventData sid eid err s).isStreamingFlag = false ∧
      (handleErrorEventData sid eid err s).messages.getLast? =
        some ⟨eid, errorContentFor err, "assistant".data, false⟩ ∧
      (∀ m ∈ (handleStreamError sid eid info s).messages, ¬m.id = sid) ∧
      (handleStreamError sid eid info s).loading = false ∧
      (handleStreamError sid eid info s).isStreamingFlag = false ∧
      (handleStreamError sid eid info s).messages.getLast? =
        some ⟨eid, streamErrorContentFor info, "assistant".data, false⟩ := by
  refine ⟨?_, rfl, rfl, ?_, ?_, rfl, rfl, ?_⟩
  · intro m hm
    simp only [handleErrorEventData, List.mem_append, List.mem_filter,
      List.mem_singleton] at hm
    rcases hm with ⟨-, hp⟩ | rfl
    · simp only [Bool.not_eq_true', beq_eq_false_iff_ne, ne_eq] at hp
      exact hp
    · exact h
  · simp only [handleErrorEventData]
    exact List.getLast?_concat _
  · intro m hm
    simp only [handleStreamError, List.mem_append, List.mem_filter,
      List.mem_singleton] at hm
    rcases hm with ⟨-, hp⟩ | rfl
    · simp only [Bool.not_eq_true', beq_eq_false_iff_ne, ne_eq] at hp
      exact hp
    · exact h
  · simp only [handleStreamError]
    exact List.getLast?_concat _

/-- Witness streaming-placeholder id for C9. -/
def sidC9 : Str := "streaming-1".data

/-- Witness error-message id for C9. -/
def eidC9 : Str := "error-1".data

/-- Witness client state for C9: one confirmed message plus the placeholder. -/
def stateC9 : ClientState :=
  ⟨[⟨"m1".data, "hello".data, "user".data, false⟩,
    ⟨sidC9, "par".data, "assistant".data, true⟩], true, true⟩

/-- Witness for C9 at a concrete in-flight state. -/
theorem c9_error_cleanup_witness :
    (∀ m ∈ (handleErrorEventData sidC9 eidC9 (some "boom".data) stateC9).messages,
        ¬m.id = sidC9) ∧
      (handleErrorEventData sidC9 eidC9 (some "boom".data) stateC9).loading = false ∧
      (handleErrorEventData sidC9 eidC9 (some "boom".data) stateC9).isStreamingFlag = false ∧
      (handleErrorEventData sidC9 eidC9 (some "boom".data) stateC9).messages.getLast? =
        some ⟨eidC9, errorContentFor (some "boom".data), "assistant".data, false⟩ ∧
      (∀ m ∈ (handleStreamError sidC9 eidC9 none stateC9).messages, ¬m.id = sidC9) ∧
      (handleStreamError sidC9 eidC9 none stateC9).loading = false ∧
      (handleStreamError sidC9 eidC9 none stateC9).isStreamingFlag = false ∧
      (handleStreamError sidC9 eidC9 none stateC9).messages.getLast? =
        some ⟨eidC9, streamErrorContentFor none, "assistant".data, false⟩ :=
  c9_error_cleanup sidC9 eidC9 (some "boom".data) none stateC9 (by decide)

/-- A key absent from a payload has no binding to look up. -/
theorem getField_of_hasField_false (k : Str) (fields : List (Str × JVal))
    (h : hasField k fields = false) : getField k fields = none := by
  induction fields with
  | nil => rfl
  | cons f rest ih =>
    obtain ⟨k₁, v⟩ := f
    simp only [hasField, List.any_cons, Bool.or_eq_false_iff] at h
    simp [getField, ih h.2, h.1]

/-- C10 amended: the record serialized by sendSSEEvent carries the event tag
as its `type` whenever the payload has no `type` binding; when the payload
does bind `type`, the payload's value is what is emitted (it overrides the
tag, and may coincidentally equal it, so tag-equality does not imply absence
of a payload `type` property). -/
theorem c10_amended (tag : Str) (data : List (Str × JVal)) :
    (hasField "type".data data = false →
      getField "type".data (sseEventData tag data) = some (JVal.s tag)) ∧
      (∀ v, getField "type".data data = some v →
        getField "type".data (sseEventData tag data) = some v) := by
  constructor
  · intro h
    rw [sseEventData, getField, getField_of_hasField_false _ _ h]
    simp
  · intro v hv
    rw [sseEventData, getField, hv]

/-- C10 as stated is false: when the payload's own `type` value happens to
equal the event tag, the emitted `type` equals the tag even though the payload
does contain a `type` property, so the claimed equivalence fails. -/
theorem c10_counterexample :
    getField "type".data
        (sseEventData "chunk".data [("type".data, JVal.s "chunk".data)]) =
      some (JVal.s "chunk".data) ∧
      hasField "type".data [("type".data, JVal.s "chunk".data)] = true :=
  ⟨rfl, rfl⟩

/-- Witness for the amended C10: a payload without `type` keeps the tag, a
payload with `type` overrides it. -/
theorem c10_amended_witness :
    getField "type".data
        (sseEventData "chunk".data [("content".data, JVal.s "hi".data)]) =
      some (JVal.s "chunk".data) ∧
      getField "type".data
          (sseEventData "start".data [("type".data, JVal.s "override".data)]) =
        some (JVal.s "override".data) :=
  ⟨(c10_amended "chunk".data [("content".data, JVal.s "hi".data)]).1 rfl,
    (c10_amended "start".data [("type".data, JVal.s "override".data)]).2
      (JVal.s "override".data) rfl⟩

/-- C5 counterexample request: a POST with empty content and an attached file. -/
def qC5 : StreamQuery := ⟨none, [], some "tok".data, true, some "r.pdf".data, some "zz".data⟩

/-- Witness environment for C5. -/
def envC5 : Env :=
  ⟨fun _ => some "u1".data, [], fun _ => ChatAttempt.failure [] "x".data,
    fun _ => Except.ok "ok".data, "c1".data⟩

/-- The 62-character example content from the specification. -/
def specLongContent : Str :=
  "Explain quantum computing in simple terms for a five year old".data

/-- C5 as stated is false on two points: a new conversation created from an
empty content (file attached) gets an empty title, not "New Conversation";
and the truncation marker appended by the route handlers is the three ASCII
dots "...", not the single ellipsis character. -/
theorem c5_counterexample :
    createdTitle (runPostStream qC5 envC5) = some [] ∧
      ¬([] : Str) = "New Conversation".data ∧
      routeTitle specLongContent = specLongContent.take 50 ++ "...".data ∧
      ¬routeTitle specLongContent = specLongContent.take 50 ++ ['…'] := by
  refine ⟨rfl, by decide, rfl, by decide⟩

/-- C5 amended: in the stream route handlers the derived title is the content
unchanged when it has at most 50 characters, and its first 50 characters
followed by the three ASCII dots "..." when longer; empty content (possible
only with a file attached, on POST) yields an empty title. The
"New Conversation" fallback exists only in the unused utility
generateConversationTitle. -/
theorem c5_amended (content : Str) (env : Env) (auth uid : Str)
    (hu : env.authUser auth = some uid) :
    (content.length ≤ 50 → routeTitle content = content) ∧
      (50 < content.length → routeTitle content = content.take 50 ++ "...".data) ∧
      generateConversationTitle [] 50 = "New Conversation".data ∧
      createdTitle (runPostStream ⟨none, [], some auth, true, some "f".data, some "d".data⟩
        env) = some [] := by
  refine ⟨?_, ?_, rfl, ?_⟩
  · intro hle
    rw [routeTitle, if_neg (by omega), List.append_nil, List.take_of_length_le hle]
  · intro hgt
    rw [routeTitle, if_pos hgt]
  · simp only [runPostStream, hu, Bool.not_true, Bool.and_false, Bool.false_eq_true,
      if_false, strTruthy, postOutcome]
    split <;> simp [createdTitle, routeTitle]

/-- Witness for the amended C5: short content kept, long content truncated
with "...", utility fallback, and the empty POST title. -/
theorem c5_amended_witness :
    routeTitle "Hi".data = "Hi".data ∧
      routeTitle specLongContent = specLongContent.take 50 ++ "...".data ∧
      generateConversationTitle [] 50 = "New Conversation".data ∧
      createdTitle (runPostStream ⟨none, [], some "tok".data, true, some "f".data,
        some "d".data⟩ envC5) = some [] :=
  ⟨(c5_amended "Hi".data envC5 "tok".data "u1".data rfl).1 (by decide),
    (c5_amended specLongContent envC5 "tok".data "u1".data rfl).2.1 (by decide),
    (c5_amended "Hi".data envC5 "tok".data "u1".data rfl).2.2.1,
    (c5_amended "Hi".data envC5 "tok".data "u1".data rfl).2.2.2⟩

/-- dropWhile with the whitespace test leaves a run of letters unchanged. -/
theorem dropWhileWs_replicate (n : Nat) :
    List.dropWhile isWsB (List.replicate n 'a') = List.replicate n 'a' := by
  cases n with
  | zero => rfl
  | succ m =>
    rw [List.replicate_succ, List.dropWhile_cons, if_neg (by decide)]

/-- trim leaves a run of letters unchanged. -/
theorem trim_replicate (n : Nat) : trim (List.replicate n 'a') = List.replicate n 'a' := by
  rw [trim, dropWhileWs_replicate, List.reverse_replicate, dropWhileWs_replicate,
    List.reverse_replicate]

/-- Whether the handler opened the stream (rather than failing synchronously). -/
def isStreamedB : HandlerResult → Bool
  | .httpError _ _ => false
  | .streamed _ => true

/-- Whether the handler run created a new conversation (a side effect). -/
def createdSomeB : HandlerResult → Bool
  | .httpError _ _ => false
  | .streamed o => o.createdConversation.isSome

/-- C6 counterexample request: 10,001 characters of content. -/
def qC6 : StreamQuery :=
  ⟨none, List.replicate 10001 'a', some "tok".data, false, none, none⟩

/-- Witness environment for C6. -/
def envC6 : Env :=
  ⟨fun _ => some "u1".data, [], fun _ => ChatAttempt.success ["ok".data],
    fun _ => Except.ok "ok".data, "c1".data⟩

/-- For any valid text-only request without a conversation id, the GET
handler opens the stream and creates a conversation, whatever the content. -/
theorem runGetStream_opens (content : Str) (env : Env) (auth uid : Str)
    (hne : (trim content).isEmpty = false)
    (hu : env.authUser auth = some uid) :
    isStreamedB (runGetStream ⟨none, content, some auth, false, none, none⟩ env) = true ∧
      createdSomeB (runGetStream ⟨none, content, some auth, false, none, none⟩ env) =
        true := by
  constructor <;>
    simp [runGetStream, hne, hu, strTruthy, isStreamedB, createdSomeB, getOutcome]

/-- C6 as stated is false: a streaming request whose content exceeds 10,000
characters is not rejected - the GET handler opens the stream and creates a
conversation (a side effect), because the stream handlers never invoke
validateMessageContent (which would flag the content as invalid). -/
theorem c6_counterexample :
    (validateMessageContent (List.replicate 10001 'a')).isValid = false ∧
      isStreamedB (runGetStream qC6 envC6) = true ∧
      createdSomeB (runGetStream qC6 envC6) = true := by
  have hne : (List.replicate 10001 'a').isEmpty = false := by
    rw [List.isEmpty_eq_false]
    exact List.replicate_succ_ne_nil 10000 'a'
  have htr : (trim (List.replicate 10001 'a')).isEmpty = false := by
    rw [trim_replicate]
    exact hne
  have hlen : 10000 < (List.replicate 10001 'a').length := by
    rw [List.length_replicate]
    decide
  have hopen := runGetStream_opens (List.replicate 10001 'a') envC6 "tok".data "u1".data htr rfl
  refine ⟨?_, hopen.1, hopen.2⟩
  simp only [validateMessageContent, hne, htr, Bool.false_eq_true, if_false, if_pos hlen]
  rfl

/-- C6 amended: validateMessageContent does flag content over 10,000
characters as invalid, but the stream handlers never call it: a request with
over-long, non-whitespace content and a valid credential still opens the
stream (side effects occur) instead of failing with a ValidationError. -/
theorem c6_amended (content : Str) (env : Env) (auth uid : Str)
    (hlen : 10000 < content.length)
    (hne : (trim content).isEmpty = false)
    (hu : env.authUser auth = some uid) :
    (validateMessageContent content).isValid = false ∧
      isStreamedB (runGetStream ⟨none, content, some auth, false, none, none⟩ env) = true := by
  have hce : content.isEmpty = false := by
    rw [List.isEmpty_eq_false]
    intro hnil
    rw [hnil] at hlen
    simp at hlen
  constructor
  · simp only [validateMessageContent, hce, hne, Bool.false_eq_true, if_false, if_pos hlen]
    rfl
  · exact (runGetStream_opens content env auth uid hne hu).1

/-- Witness for the amended C6 at the concrete 10,001-character content. -/
theorem c6_amended_witness :
    (validateMessageContent (List.replicate 10001 'a')).isValid = false ∧
      isStreamedB (runGetStream ⟨none, List.replicate 10001 'a', some "tok".data, false,
        none, none⟩ envC6) = true :=
  c6_amended (List.replicate 10001 'a') envC6 "tok".data "u1".data
    (by rw [List.length_replicate]; decide)
    (by rw [trim_replicate, List.isEmpty_eq_false]; exact List.replicate_succ_ne_nil 10000 'a')
    rfl

end GptClone
